import Mathlib

/-!
Shallow embedding of the yankees-offseason-sentiment pipeline
(`src/data_collection/news.py`, `src/data_collection/odds.py`,
`src/sentiment/analyze.py`, `src/storage/models.py`).

Python integers are `ℤ`/`ℕ`, Python float arithmetic on integer inputs is
modelled exactly as rational arithmetic (`ℚ`), Python strings are `String`
with operations re-implemented on `List Char` so they evaluate by kernel
reduction, fallible operations (HTTP requests, `/` with zero divisor)
return `Except`/`Option`, and the SQLAlchemy session is modelled as the
list of stored rows plus the trace of `commit`/`rollback`/`close` events
emitted by the `try`/`except`/`finally` blocks of the source.
-/

/-! ## Python string primitives (re-implemented on `List Char`) -/

/-- Python `str.lower()` (ASCII range, which covers all strings the source
compares: team names and market keys). -/
def py_lower (s : String) : String := ⟨s.toList.map Char.toLower⟩

/-- Python `str.strip()`: drop leading and trailing whitespace. -/
def py_strip (s : String) : String :=
  ⟨((s.toList.dropWhile Char.isWhitespace).reverse.dropWhile Char.isWhitespace).reverse⟩

/-- Python `needle in hay` on lists of characters: substring containment. -/
def listContainsSub (needle : List Char) : List Char → Bool
  | [] => needle.isPrefixOf []
  | c :: rest => needle.isPrefixOf (c :: rest) || listContainsSub needle rest

/-- Python `needle in hay` on strings. -/
def strContainsSub (needle hay : String) : Bool :=
  listContainsSub needle.toList hay.toList

/-- Python `s.replace("Z", "+00:00")` from `news.py` line 85, specialised to
the single-character needle `"Z"` used there: every occurrence of `'Z'` is
replaced by `"+00:00"`. -/
def replace_Z_utc : List Char → List Char
  | [] => []
  | c :: rest =>
    (if c = 'Z' then "+00:00".toList else [c]) ++ replace_Z_utc rest

/-- Python `sep.join(parts)` (`analyze.py` line 84 with `sep = " "`). -/
def py_join (sep : String) : List String → String
  | [] => ""
  | [s] => s
  | s :: rest => s ++ sep ++ py_join sep rest

/-- Python float division `x / y`: raises `ZeroDivisionError` when `y = 0`,
modelled as `none`; otherwise exact rational division. -/
def py_div (x y : ℚ) : Option ℚ := if y = 0 then none else some (x / y)

/-! ## Odds converter (`odds.py`, `_american_to_decimal` /
`_american_to_probability`, lines 105-120) -/

/-- `OddsCollector._american_to_decimal` (odds.py lines 105-111):
`if american > 0: return (american / 100) + 1`
`else: return (100 / abs(american)) + 1`. -/
def american_to_decimal (american : ℤ) : Option ℚ :=
  if american > 0 then (py_div (american : ℚ) 100).map (fun q => q + 1)
  else (py_div 100 ((|american| : ℤ) : ℚ)).map (fun q => q + 1)

/-- `OddsCollector._american_to_probability` (odds.py lines 114-120):
`if american > 0: return 100 / (american + 100)`
`else: return abs(american) / (abs(american) + 100)`. -/
def american_to_probability (american : ℤ) : Option ℚ :=
  if american > 0 then py_div 100 ((american : ℚ) + 100)
  else py_div ((|american| : ℤ) : ℚ) (((|american| : ℤ) : ℚ) + 100)

/-! Branch lemmas for the two converters. -/

lemma american_to_decimal_of_pos (a : ℤ) (h : 0 < a) :
    american_to_decimal a = some ((a : ℚ) / 100 + 1) := by
  have h100 : (100 : ℚ) ≠ 0 := by norm_num
  simp [american_to_decimal, py_div, h, h100]

lemma american_to_decimal_of_neg (a : ℤ) (h : a < 0) :
    american_to_decimal a = some (100 / ((|a| : ℤ) : ℚ) + 1) := by
  have h1 : ¬ a > 0 := by omega
  simp [american_to_decimal, py_div, h1]
  omega

lemma american_to_probability_of_pos (a : ℤ) (h : 0 < a) :
    american_to_probability a = some (100 / ((a : ℚ) + 100)) := by
  have h2 : (a : ℚ) + 100 ≠ 0 := by
    have : (0 : ℚ) < (a : ℚ) := by exact_mod_cast h
    positivity
  simp [american_to_probability, py_div, h, h2]

lemma american_to_probability_of_nonpos (a : ℤ) (h : ¬ a > 0) :
    american_to_probability a =
      some (((|a| : ℤ) : ℚ) / (((|a| : ℤ) : ℚ) + 100)) := by
  simp [american_to_probability, py_div, h]
  positivity

lemma abs_cast_pos_of_ne (a : ℤ) (ha : a ≠ 0) : (0 : ℚ) < ((|a| : ℤ) : ℚ) := by
  have : (0 : ℤ) < |a| := abs_pos.mpr ha
  exact_mod_cast this

/-- C1: The odds conversion functions compute exactly the documented
formulas: for `a > 0`, `americanToDecimal a = a/100 + 1` and
`americanToProbability a = 100/(a+100)`; for `a < 0`,
`americanToDecimal a = 100/|a| + 1` and
`americanToProbability a = |a|/(|a|+100)`. Both are pure functions of the
argument alone (they are plain Lean functions of `a`, mirroring the
`@staticmethod`s that read no state). -/
theorem odds_conversion_formulas (a : ℤ) :
    (0 < a →
      american_to_decimal a = some ((a : ℚ) / 100 + 1) ∧
      american_to_probability a = some (100 / ((a : ℚ) + 100))) ∧
    (a < 0 →
      american_to_decimal a = some (100 / ((|a| : ℤ) : ℚ) + 1) ∧
      american_to_probability a =
        some (((|a| : ℤ) : ℚ) / (((|a| : ℤ) : ℚ) + 100))) := by
  constructor
  · intro h
    exact ⟨american_to_decimal_of_pos a h, american_to_probability_of_pos a h⟩
  · intro h
    exact ⟨american_to_decimal_of_neg a h,
      american_to_probability_of_nonpos a (by omega)⟩

/-- Witness for C1 at the concrete inputs `100` and `-150`. -/
theorem odds_conversion_formulas_witness :
    (american_to_decimal 100 = some (((100 : ℤ) : ℚ) / 100 + 1) ∧
      american_to_probability 100 = some (100 / (((100 : ℤ) : ℚ) + 100))) ∧
    (american_to_decimal (-150) = some (100 / ((|(-150 : ℤ)| : ℤ) : ℚ) + 1) ∧
      american_to_probability (-150) =
        some (((|(-150 : ℤ)| : ℤ) : ℚ) /
          (((|(-150 : ℤ)| : ℤ) : ℚ) + 100))) :=
  ⟨(odds_conversion_formulas 100).1 (by decide),
   (odds_conversion_formulas (-150)).2 (by decide)⟩

/-- C2: For every nonzero integer `a`, `americanToDecimal a > 1` and
`americanToProbability a` lies strictly in `(0,1)`; moreover
`americanToDecimal 100 = 2`, `americanToProbability 100 = 1/2`,
`americanToDecimal (-150) = 5/3` (≈ 1.6667) and
`americanToProbability (-150) = 3/5` (= 0.6), in exact rational
arithmetic. -/
theorem odds_conversion_bounds (a : ℤ) (h : a ≠ 0) :
    (∃ d, american_to_decimal a = some d ∧ 1 < d) ∧
    (∃ p, american_to_probability a = some p ∧ 0 < p ∧ p < 1) ∧
    american_to_decimal 100 = some 2 ∧
    american_to_probability 100 = some (1/2) ∧
    american_to_decimal (-150) = some (5/3) ∧
    american_to_probability (-150) = some (3/5) := by
  refine ⟨?_, ?_, ?_, ?_, ?_, ?_⟩
  · rcases h.lt_or_lt with hneg | hpos
    · refine ⟨100 / ((|a| : ℤ) : ℚ) + 1, american_to_decimal_of_neg a hneg, ?_⟩
      have habs := abs_cast_pos_of_ne a h
      have : 0 < 100 / ((|a| : ℤ) : ℚ) := by positivity
      linarith
    · refine ⟨(a : ℚ) / 100 + 1, american_to_decimal_of_pos a hpos, ?_⟩
      have ha : (0 : ℚ) < (a : ℚ) := by exact_mod_cast hpos
      have : 0 < (a : ℚ) / 100 := by positivity
      linarith
  · rcases h.lt_or_lt with hneg | hpos
    · refine ⟨((|a| : ℤ) : ℚ) / (((|a| : ℤ) : ℚ) + 100),
        american_to_probability_of_nonpos a (by omega), ?_, ?_⟩
      · have habs := abs_cast_pos_of_ne a h
        positivity
      · have habs := abs_cast_pos_of_ne a h
        rw [div_lt_one (by positivity)]
        linarith
    · refine ⟨100 / ((a : ℚ) + 100), american_to_probability_of_pos a hpos, ?_, ?_⟩
      · have ha : (0 : ℚ) < (a : ℚ) := by exact_mod_cast hpos
        positivity
      · have ha : (0 : ℚ) < (a : ℚ) := by exact_mod_cast hpos
        rw [div_lt_one (by positivity)]
        linarith
  · rw [american_to_decimal_of_pos 100 (by norm_num)] <;> norm_num
  · rw [american_to_probability_of_pos 100 (by norm_num)] <;> norm_num
  · rw [american_to_decimal_of_neg (-150) (by norm_num)] <;> norm_num
  · rw [american_to_probability_of_nonpos (-150) (by norm_num)] <;> norm_num

/-- Witness for C2 at the concrete input `-150`. -/
theorem odds_conversion_bounds_witness :
    (∃ d, american_to_decimal (-150) = some d ∧ 1 < d) ∧
    (∃ p, american_to_probability (-150) = some p ∧ 0 < p ∧ p < 1) ∧
    american_to_decimal 100 = some 2 ∧
    american_to_probability 100 = some (1/2) ∧
    american_to_decimal (-150) = some (5/3) ∧
    american_to_probability (-150) = some (3/5) :=
  odds_conversion_bounds (-150) (by decide)

/-- C9: At input `a = 0` both converters take the negative-odds branch
(the positive branch requires `a > 0`): `americanToProbability 0` returns
exactly `0` (outside the `(0,1)` range guaranteed for nonzero inputs),
while `americanToDecimal 0` evaluates `100 / |0|`, a division by zero
(`ZeroDivisionError` in the source, `none` here) — the negative branch of
`americanToDecimal` is total only for `a ≠ 0`. -/
theorem odds_conversion_at_zero :
    american_to_probability 0 = some 0 ∧ american_to_decimal 0 = none := by
  constructor
  · rw [american_to_probability_of_nonpos 0 (by norm_num)] <;> norm_num
  · simp [american_to_decimal, py_div]

/-- C10: For every nonzero integer `a`, the implied probability is exactly
the reciprocal of the decimal odds in exact rational arithmetic:
`americanToProbability a * americanToDecimal a = 1`, on both branches. -/
theorem odds_probability_reciprocal (a : ℤ) (h : a ≠ 0) :
    ∃ d p, american_to_decimal a = some d ∧
      american_to_probability a = some p ∧ p * d = 1 := by
  rcases h.lt_or_lt with hneg | hpos
  · refine ⟨100 / ((|a| : ℤ) : ℚ) + 1,
      ((|a| : ℤ) : ℚ) / (((|a| : ℤ) : ℚ) + 100),
      american_to_decimal_of_neg a hneg,
      american_to_probability_of_nonpos a (by omega), ?_⟩
    have habs := abs_cast_pos_of_ne a h
    have h1 : ((|a| : ℤ) : ℚ) ≠ 0 := ne_of_gt habs
    have h2 : ((|a| : ℤ) : ℚ) + 100 ≠ 0 := by positivity
    field_simp
    try ring
  · refine ⟨(a : ℚ) / 100 + 1, 100 / ((a : ℚ) + 100),
      american_to_decimal_of_pos a hpos,
      american_to_probability_of_pos a hpos, ?_⟩
    have ha : (0 : ℚ) < (a : ℚ) := by exact_mod_cast hpos
    have h2 : (a : ℚ) + 100 ≠ 0 := by positivity
    field_simp
    try ring

/-- Witness for C10 at the concrete input `-150`. -/
theorem odds_probability_reciprocal_witness :
    ∃ d p, american_to_decimal (-150) = some d ∧
      american_to_probability (-150) = some p ∧ p * d = 1 :=
  odds_probability_reciprocal (-150) (by decide)

/-! ## Storage layer (`storage/models.py`) and session lifecycle

The SQLAlchemy session of each `collect_and_store` /
`analyze_unprocessed_articles` run is modelled by the list of persisted
rows together with the trace of lifecycle calls the `try`/`except`/
`finally` block performs (`session.commit()` / `session.rollback()` /
`session.close()`). -/

/-- A `session.commit()` / `session.rollback()` / `session.close()` call. -/
inductive SessionEvent where
  | commit
  | rollback
  | close
deriving DecidableEq, Repr

/-- The `articles` table row (`storage/models.py`, class `Article`).
Timestamps are abstract instants (`ℕ`); the autoincrement `id` is assigned
on insert. -/
structure Article where
  id : ℕ
  source : String
  author : Option String
  title : String
  description : Option String
  url : Option String
  published_at : ℕ
  content : Option String
deriving DecidableEq, Repr

/-- The counters dict returned by `NewsCollector.collect_and_store`. -/
structure NewsStats where
  fetched : ℕ
  new : ℕ
  duplicates : ℕ
deriving DecidableEq, Repr

/-! ## News collector (`data_collection/news.py`) -/

/-- One raw record of the search response's `articles` array (news.py
lines 71-96): every field is read with `.get`, so every field is
optional. `source_name` is the flattened `.get("source", \x7b\x7d).get("name")`
lookup. -/
structure RawArticle where
  source_name : Option String
  author : Option String
  title : Option String
  description : Option String
  url : Option String
  publishedAt : Option String
  content : Option String
deriving DecidableEq, Repr

/-- news.py lines 83-87: `article_data.get("publishedAt", "")`, replace the
`Z` suffix by `+00:00`, and parse with `datetime.fromisoformat`
(abstracted as the oracle `fromiso`, `none` = `ValueError`); on failure
substitute the current UTC time `now`. -/
def parse_published_at (fromiso : String → Option ℕ) (now : ℕ)
    (r : RawArticle) : ℕ :=
  match fromiso ⟨replace_Z_utc (r.publishedAt.getD "").toList⟩ with
  | some t => t
  | none => now

/-- news.py lines 89-97: the `Article(...)` constructor call for a record
with URL `u`; `id` is the autoincrement key assigned on insert. -/
def mk_article (fromiso : String → Option ℕ) (now : ℕ) (id : ℕ)
    (r : RawArticle) (u : String) : Article :=
  { id := id
    source := r.source_name.getD "Unknown"
    author := r.author
    title := r.title.getD ""
    description := r.description
    url := some u
    published_at := parse_published_at fromiso now r
    content := r.content }

/-- The body of the `for article_data in articles` loop (news.py lines
71-99), acting on the pair (session rows, counters): skip a record whose
URL is absent or empty (Python truthiness `if not url`), count a record
whose URL matches a stored article as a duplicate, otherwise insert a new
`Article` row and count it as new. -/
def news_step (fromiso : String → Option ℕ) (now : ℕ)
    (st : List Article × NewsStats) (r : RawArticle) :
    List Article × NewsStats :=
  match r.url with
  | none => st
  | some u =>
    if u = "" then st
    else if st.1.any (fun a => a.url = some u) then
      (st.1, { st.2 with duplicates := st.2.duplicates + 1 })
    else
      (st.1 ++ [mk_article fromiso now (st.1.length + 1) r u],
       { st.2 with new := st.2.new + 1 })

/-- Outcome of one `NewsCollector.collect_and_store` run: the rows visible
after the run, the session lifecycle trace, and the returned stats or the
re-raised HTTP error (carrying the upstream status code). -/
structure NewsRun where
  db : List Article
  events : List SessionEvent
  result : Except ℕ NewsStats

/-- `NewsCollector.collect_and_store` (news.py lines 57-108). The
`search_yankees_articles` HTTP round-trip is the `response` argument:
`.error status` is `requests` raising `HTTPError` on a non-2xx response
(news.py line 52), in which case the `except` branch rolls the session
back (rows unchanged), the `finally` branch closes it, and the error is
re-raised. Otherwise the loop body runs over every fetched record and the
session commits once at the end. -/
def news_collect_and_store (fromiso : String → Option ℕ) (now : ℕ)
    (response : Except ℕ (List RawArticle)) (db : List Article) : NewsRun :=
  match response with
  | .error status =>
    { db := db, events := [.rollback, .close], result := .error status }
  | .ok articles =>
    let fin := articles.foldl (news_step fromiso now)
      (db, { fetched := articles.length, new := 0, duplicates := 0 })
    { db := fin.1, events := [.commit, .close], result := .ok fin.2 }

/-- A record passes the `if not url: continue` guard: its URL is present
and nonempty. -/
def url_present (r : RawArticle) : Bool :=
  match r.url with
  | some u => u ≠ ""
  | none => false

/-- The record's URL already occurs among the stored articles. -/
def url_in_store (db : List Article) (r : RawArticle) : Bool :=
  match r.url with
  | some u => db.any (fun a => a.url = some u)
  | none => false

/-! Loop invariants of the news collection fold. -/

lemma news_step_fetched (fromiso : String → Option ℕ) (now : ℕ)
    (st : List Article × NewsStats) (r : RawArticle) :
    (news_step fromiso now st r).2.fetched = st.2.fetched := by
  unfold news_step
  cases r.url with
  | none => rfl
  | some u => by_cases h1 : u = "" <;> by_cases h2 : st.1.any (fun a => a.url = some u) <;>
      simp [h1, h2]

lemma news_fold_fetched (fromiso : String → Option ℕ) (now : ℕ)
    (l : List RawArticle) (st : List Article × NewsStats) :
    (l.foldl (news_step fromiso now) st).2.fetched = st.2.fetched := by
  induction l generalizing st with
  | nil => rfl
  | cons r rest ih => rw [List.foldl_cons, ih, news_step_fetched]

lemma news_step_new_dup (fromiso : String → Option ℕ) (now : ℕ)
    (st : List Article × NewsStats) (r : RawArticle) :
    (news_step fromiso now st r).2.new + (news_step fromiso now st r).2.duplicates =
      st.2.new + st.2.duplicates + (if url_present r then 1 else 0) := by
  unfold news_step url_present
  cases r.url with
  | none => simp
  | some u =>
    by_cases h1 : u = "" <;> by_cases h2 : st.1.any (fun a => a.url = some u) <;>
      simp [h1, h2] <;> omega

lemma news_fold_new_dup (fromiso : String → Option ℕ) (now : ℕ)
    (l : List RawArticle) (st : List Article × NewsStats) :
    (l.foldl (news_step fromiso now) st).2.new +
        (l.foldl (news_step fromiso now) st).2.duplicates =
      st.2.new + st.2.duplicates + l.countP url_present := by
  induction l generalizing st with
  | nil => simp
  | cons r rest ih =>
    rw [List.foldl_cons, ih, news_step_new_dup, List.countP_cons]
    by_cases h : url_present r <;> simp [h] <;> omega

lemma news_fold_all_dup (fromiso : String → Option ℕ) (now : ℕ)
    (l : List RawArticle) (st : List Article × NewsStats)
    (h : ∀ r ∈ l, url_present r = true ∧ url_in_store st.1 r = true) :
    l.foldl (news_step fromiso now) st =
      (st.1, { st.2 with duplicates := st.2.duplicates + l.length }) := by
  induction l generalizing st with
  | nil =>
    obtain ⟨db, stats⟩ := st
    rfl
  | cons r rest ih =>
    obtain ⟨hp, hs⟩ := h r (List.mem_cons_self r rest)
    rw [List.foldl_cons]
    unfold url_present at hp
    unfold url_in_store at hs
    rcases hru : r.url with _ | u
    · rw [hru] at hp; exact absurd hp (by simp)
    · rw [hru] at hp hs
      have hu : ¬ u = "" := by simpa using hp
      have hs' : ∃ a ∈ st.1, a.url = some u := by simpa using hs
      have hstep : news_step fromiso now st r =
          (st.1, { st.2 with duplicates := st.2.duplicates + 1 }) := by
        unfold news_step
        rw [hru]
        simp [hu]
        exact hs'
      rw [hstep, ih]
      · have : st.2.duplicates + 1 + rest.length =
            st.2.duplicates + (rest.length + 1) := by omega
        simp [this]
      · intro r' hr'
        exact h r' (List.mem_cons_of_mem r hr')

/-! Concrete fixtures for the scenario claims. `iso_parse_stub` is a
`datetime.fromisoformat` oracle that fails on every input (the parse
result never affects any counted quantity). -/

def iso_parse_stub : String → Option ℕ := fun _ => none

def raw_article_a : RawArticle :=
  { source_name := some "MLB Trade Rumors"
    author := some "A. Writer"
    title := some "Yankees sign a starter"
    description := some "A big offseason move."
    url := some "https://example.com/a"
    publishedAt := some "2026-01-02T03:04:05Z"
    content := some "Full text" }

def raw_article_b : RawArticle :=
  { source_name := none
    author := none
    title := none
    description := none
    url := some "https://example.com/b"
    publishedAt := none
    content := none }

def raw_article_no_url : RawArticle :=
  { source_name := some "ESPN"
    author := none
    title := some "No link here"
    description := none
    url := none
    publishedAt := some "2026-01-02T03:04:05Z"
    content := none }

/-- C4: per-record behaviour of `collect_and_store` for news: a record
whose URL is absent (or empty, the same Python-truthiness guard) is
skipped and counts toward neither `new` nor `duplicates`; a record whose
URL exactly matches a stored article only increments `duplicates`; any
other record inserts exactly one new `Article` row and increments `new`.
End-to-end: a response of 3 records — 2 with unique unseen URLs, 1
without a URL — yields `fetched = 3, new = 2, duplicates = 0` and exactly
two stored rows. -/
theorem news_record_processing (fromiso : String → Option ℕ) (now : ℕ)
    (st : List Article × NewsStats) (r : RawArticle) (u : String) :
    (r.url = none → news_step fromiso now st r = st) ∧
    (r.url = some "" → news_step fromiso now st r = st) ∧
    (r.url = some u → u ≠ "" → st.1.any (fun a => a.url = some u) = true →
      news_step fromiso now st r =
        (st.1, { st.2 with duplicates := st.2.duplicates + 1 })) ∧
    (r.url = some u → u ≠ "" → st.1.any (fun a => a.url = some u) = false →
      news_step fromiso now st r =
        (st.1 ++ [mk_article fromiso now (st.1.length + 1) r u],
          { st.2 with new := st.2.new + 1 })) ∧
    ((news_collect_and_store iso_parse_stub 0
        (.ok [raw_article_a, raw_article_b, raw_article_no_url]) []).db.length = 2 ∧
      (news_collect_and_store iso_parse_stub 0
        (.ok [raw_article_a, raw_article_b, raw_article_no_url]) []).result =
        .ok { fetched := 3, new := 2, duplicates := 0 }) := by
  refine ⟨?_, ?_, ?_, ?_, rfl, rfl⟩
  · intro h
    unfold news_step
    rw [h]
  · intro h
    unfold news_step
    rw [h]
    simp
  · intro h hu hany
    unfold news_step
    rw [h]
    simp only [if_neg hu, hany, if_true]
  · intro h hu hany
    unfold news_step
    rw [h]
    simp only [if_neg hu, hany, Bool.false_eq_true, if_false]

/-- Witness for C4: the skip, duplicate and insert cases at concrete
inputs, plus the concrete 3-record scenario. -/
theorem news_record_processing_witness :
    news_step iso_parse_stub 0 ([], { fetched := 3, new := 0, duplicates := 0 })
        raw_article_no_url =
      ([], { fetched := 3, new := 0, duplicates := 0 }) ∧
    news_step iso_parse_stub 0
        ([mk_article iso_parse_stub 0 1 raw_article_a "https://example.com/a"],
          { fetched := 3, new := 0, duplicates := 0 }) raw_article_a =
      ([mk_article iso_parse_stub 0 1 raw_article_a "https://example.com/a"],
        { fetched := 3, new := 0, duplicates := 1 }) ∧
    news_step iso_parse_stub 0 ([], { fetched := 3, new := 0, duplicates := 0 })
        raw_article_a =
      ([mk_article iso_parse_stub 0 1 raw_article_a "https://example.com/a"],
        { fetched := 3, new := 1, duplicates := 0 }) ∧
    (news_collect_and_store iso_parse_stub 0
        (.ok [raw_article_a, raw_article_b, raw_article_no_url]) []).db.length = 2 ∧
    (news_collect_and_store iso_parse_stub 0
        (.ok [raw_article_a, raw_article_b, raw_article_no_url]) []).result =
      .ok { fetched := 3, new := 2, duplicates := 0 } :=
  ⟨(news_record_processing iso_parse_stub 0
      ([], { fetched := 3, new := 0, duplicates := 0 }) raw_article_no_url
      "https://example.com/a").1 rfl,
   (news_record_processing iso_parse_stub 0
      ([mk_article iso_parse_stub 0 1 raw_article_a "https://example.com/a"],
        { fetched := 3, new := 0, duplicates := 0 }) raw_article_a
      "https://example.com/a").2.2.1 rfl (by decide) (by decide),
   (news_record_processing iso_parse_stub 0
      ([], { fetched := 3, new := 0, duplicates := 0 }) raw_article_a
      "https://example.com/a").2.2.2.1 rfl (by decide) rfl,
   (news_record_processing iso_parse_stub 0
      ([], { fetched := 3, new := 0, duplicates := 0 }) raw_article_a
      "https://example.com/a").2.2.2.2.1,
   (news_record_processing iso_parse_stub 0
      ([], { fetched := 3, new := 0, duplicates := 0 }) raw_article_a
      "https://example.com/a").2.2.2.2.2⟩

/-- C3 counterexample: the claim `new + duplicates == fetched` on a second
overlapping run is false as stated. First run stores `raw_article_a`.
Second run fetches `raw_article_a` again (its URL is already in the
store) plus a record with no URL at all, so the feed returned no URLs
absent from the store — yet the second run reports
`fetched = 2, new = 0, duplicates = 1`, and `0 + 1 ≠ 2` (in particular
`duplicates ≠ fetched` as well). -/
theorem news_dedup_counterexample :
    (news_collect_and_store iso_parse_stub 0
        (.ok [raw_article_a, raw_article_no_url])
        (news_collect_and_store iso_parse_stub 0 (.ok [raw_article_a]) []).db).result =
      .ok { fetched := 2, new := 0, duplicates := 1 } ∧
    url_in_store
      (news_collect_and_store iso_parse_stub 0 (.ok [raw_article_a]) []).db
      raw_article_a = true ∧
    raw_article_no_url.url = none ∧
    (0 + 1 : ℕ) ≠ 2 :=
  ⟨rfl, rfl, rfl, by decide⟩

/-- C3 (amended): on a second news collection whose feed consists of
records that all carry a nonempty URL (records lacking a URL count toward
`fetched` but toward neither counter, which is what the amendment
excludes), the second run's counters satisfy
`new + duplicates = fetched`; and if moreover every URL of the second
feed is already in the store after the first run, `duplicates = fetched`. -/
theorem news_dedup_amended (fromiso : String → Option ℕ) (now : ℕ)
    (response1 response2 : List RawArticle) (db0 : List Article)
    (h : ∀ r ∈ response2, url_present r = true) :
    ∃ s, (news_collect_and_store fromiso now (.ok response2)
        (news_collect_and_store fromiso now (.ok response1) db0).db).result =
      .ok s ∧
      s.new + s.duplicates = s.fetched ∧
      ((∀ r ∈ response2, url_in_store
          (news_collect_and_store fromiso now (.ok response1) db0).db r = true) →
        s.duplicates = s.fetched) := by
  set db1 := (news_collect_and_store fromiso now (.ok response1) db0).db with hdb1
  refine ⟨(response2.foldl (news_step fromiso now)
      (db1, { fetched := response2.length, new := 0, duplicates := 0 })).2,
    rfl, ?_, ?_⟩
  · have hf := news_fold_fetched fromiso now response2
      (db1, { fetched := response2.length, new := 0, duplicates := 0 })
    have hnd := news_fold_new_dup fromiso now response2
      (db1, { fetched := response2.length, new := 0, duplicates := 0 })
    have hcount : response2.countP url_present = response2.length :=
      List.countP_eq_length.mpr (by intro r hr; simpa using h r hr)
    rw [hnd, hf]
    simpa using hcount
  · intro hall
    have hfold := news_fold_all_dup fromiso now response2
      (db1, { fetched := response2.length, new := 0, duplicates := 0 })
      (by intro r hr; exact ⟨h r hr, hall r hr⟩)
    rw [hfold]
    simp

/-- Witness for C3 (amended): a second run over the single already-stored
record `raw_article_a`. -/
theorem news_dedup_amended_witness :
    ∃ s, (news_collect_and_store iso_parse_stub 0 (.ok [raw_article_a])
        (news_collect_and_store iso_parse_stub 0 (.ok [raw_article_a]) []).db).result =
      .ok s ∧
      s.new + s.duplicates = s.fetched ∧
      ((∀ r ∈ [raw_article_a], url_in_store
          (news_collect_and_store iso_parse_stub 0 (.ok [raw_article_a]) []).db r = true) →
        s.duplicates = s.fetched) :=
  news_dedup_amended iso_parse_stub 0 [raw_article_a] [raw_article_a] [] (by decide)

/-! ## Odds collector (`data_collection/odds.py`) -/

/-- One outcome of the odds payload (`outcome.get("name", "")`,
`outcome.get("price")`, odds.py lines 59-64). -/
structure Outcome where
  name : Option String
  price : Option ℤ
deriving DecidableEq, Repr

/-- One market of the odds payload (`market.get("key")`,
`market.get("outcomes", [])`, odds.py lines 56-57). -/
structure Market where
  key : Option String
  outcomes : List Outcome
deriving DecidableEq, Repr

/-- One bookmaker of the odds payload (`bookmaker.get("title")`,
`bookmaker.get("markets", [])`, odds.py lines 54, 61). -/
structure Bookmaker where
  title : Option String
  markets : List Market
deriving DecidableEq, Repr

/-- One event of the odds payload (`event.get("bookmakers", [])`,
odds.py line 52). -/
structure OddsEvent where
  bookmakers : List Bookmaker
deriving DecidableEq, Repr

/-- One dict appended to `yankees_odds` (odds.py lines 60-66); `now` is the
`datetime.now(timezone.utc)` stamp taken at extraction. -/
structure YankeesOddsRecord where
  bookmaker : Option String
  market : String
  team : Option String
  american_odds : Option ℤ
  snapshot_at : ℕ
deriving DecidableEq, Repr

/-- `OddsCollector.extract_yankees_odds` (odds.py lines 42-67): walk
events → bookmakers → markets → outcomes, keep markets whose key is
`"outrights"` and outcomes whose name contains `"yankees"`
case-insensitively, and emit one record per retained outcome. -/
def extract_yankees_odds (now : ℕ) (odds_data : List OddsEvent) :
    List YankeesOddsRecord :=
  odds_data.flatMap (fun event =>
    event.bookmakers.flatMap (fun bookmaker =>
      bookmaker.markets.flatMap (fun market =>
        if market.key = some "outrights" then
          (market.outcomes.filter (fun outcome =>
              strContainsSub "yankees" (py_lower (outcome.name.getD "")))).map
            (fun outcome =>
              { bookmaker := bookmaker.title
                market := "World Series Winner"
                team := outcome.name
                american_odds := outcome.price
                snapshot_at := now })
        else [])))

/-- The `odds_snapshots` table row (`storage/models.py`, class
`OddsSnapshot`). -/
structure OddsSnapshot where
  bookmaker : Option String
  market : String
  american_odds : ℤ
  decimal_odds : ℚ
  implied_probability : ℚ
  snapshot_at : ℕ
deriving DecidableEq, Repr

/-- An exception escaping the odds `collect_and_store` `try` block:
`requests.HTTPError` from the fetch, `ZeroDivisionError` from a converter
(price 0), or `TypeError` from `None > 0` (missing price). -/
inductive OddsFailure where
  | http (status : ℕ)
  | zero_division
  | type_error
deriving DecidableEq, Repr

/-- Outcome of one `OddsCollector.collect_and_store` run. -/
structure OddsRun where
  db : List OddsSnapshot
  events : List SessionEvent
  result : Except OddsFailure ℕ

/-- The `for odds in yankees_odds` loop of odds.py lines 84-94: for each
record build an `OddsSnapshot` whose `decimal_odds` and
`implied_probability` are computed by the two converters from the
record's American odds, add it to the session and count it. A missing
price raises `TypeError` at the `american > 0` comparison; price `0`
raises `ZeroDivisionError` inside `_american_to_decimal`. -/
def odds_store_loop : List YankeesOddsRecord → List OddsSnapshot → ℕ →
    Except OddsFailure (List OddsSnapshot × ℕ)
  | [], db, stored => .ok (db, stored)
  | odds :: rest, db, stored =>
    match odds.american_odds with
    | none => .error .type_error
    | some a =>
      match american_to_decimal a with
      | none => .error .zero_division
      | some d =>
        match american_to_probability a with
        | none => .error .zero_division
        | some p =>
          odds_store_loop rest
            (db ++ [{ bookmaker := odds.bookmaker
                      market := odds.market
                      american_odds := a
                      decimal_odds := d
                      implied_probability := p
                      snapshot_at := odds.snapshot_at }])
            (stored + 1)

/-- `OddsCollector.collect_and_store` (odds.py lines 69-102): fetch
(`response`, with `.error status` the `HTTPError` of a non-2xx reply),
extract, loop over the extracted records, commit once and return the
count; on any exception roll back (rows unchanged), close, and re-raise. -/
def odds_collect_and_store (now : ℕ) (response : Except ℕ (List OddsEvent))
    (db : List OddsSnapshot) : OddsRun :=
  match response with
  | .error status =>
    { db := db, events := [.rollback, .close], result := .error (.http status) }
  | .ok odds_data =>
    match odds_store_loop (extract_yankees_odds now odds_data) db 0 with
    | .ok (db2, stored) =>
      { db := db2, events := [.commit, .close], result := .ok stored }
    | .error e =>
      { db := db, events := [.rollback, .close], result := .error e }

/-- An extracted record whose price is present and nonzero — exactly the
records the storing loop can process without raising. -/
def price_ok (o : YankeesOddsRecord) : Bool :=
  match o.american_odds with
  | some a => a ≠ 0
  | none => false

lemma american_to_decimal_isSome (a : ℤ) (ha : a ≠ 0) :
    ∃ d, american_to_decimal a = some d := by
  rcases ha.lt_or_lt with h1 | h1
  · exact ⟨_, american_to_decimal_of_neg a h1⟩
  · exact ⟨_, american_to_decimal_of_pos a h1⟩

lemma american_to_probability_isSome (a : ℤ) :
    ∃ p, american_to_probability a = some p := by
  rcases lt_or_le 0 a with h1 | h1
  · exact ⟨_, american_to_probability_of_pos a h1⟩
  · exact ⟨_, american_to_probability_of_nonpos a (by omega)⟩

lemma odds_loop_ok (l : List YankeesOddsRecord) (db : List OddsSnapshot) (n : ℕ)
    (h : ∀ o ∈ l, price_ok o = true) :
    ∃ ins : List OddsSnapshot,
      odds_store_loop l db n = .ok (db ++ ins, n + ins.length) ∧
      ins.length = l.length ∧
      ∀ s ∈ ins, american_to_decimal s.american_odds = some s.decimal_odds ∧
        american_to_probability s.american_odds = some s.implied_probability := by
  induction l generalizing db n with
  | nil => exact ⟨[], by simp [odds_store_loop], rfl, by simp⟩
  | cons o rest ih =>
    have hp := h o (List.mem_cons_self o rest)
    unfold price_ok at hp
    rcases ho : o.american_odds with _ | a
    · rw [ho] at hp
      exact absurd hp (by simp)
    · rw [ho] at hp
      have ha : a ≠ 0 := by simpa using hp
      obtain ⟨d, hd⟩ := american_to_decimal_isSome a ha
      obtain ⟨p, hpr⟩ := american_to_probability_isSome a
      obtain ⟨ins, hloop, hlen, hfields⟩ := ih
        (db ++ [{ bookmaker := o.bookmaker
                  market := o.market
                  american_odds := a
                  decimal_odds := d
                  implied_probability := p
                  snapshot_at := o.snapshot_at }])
        (n + 1)
        (fun o' ho' => h o' (List.mem_cons_of_mem o ho'))
      refine ⟨{ bookmaker := o.bookmaker
                market := o.market
                american_odds := a
                decimal_odds := d
                implied_probability := p
                snapshot_at := o.snapshot_at } :: ins, ?_, by simp [hlen], ?_⟩
      · simp only [odds_store_loop]
        rw [ho]
        simp only [hd, hpr]
        rw [hloop]
        simp only [Except.ok.injEq, Prod.mk.injEq, List.append_assoc,
          List.singleton_append, List.length_cons]
        exact ⟨by simp, by omega⟩
      · intro s hs
        rcases List.mem_cons.mp hs with hs | hs
        · subst hs
          exact ⟨hd, hpr⟩
        · exact hfields s hs

/-- C8: whenever the odds `collect_and_store` run succeeds, it appends one
`OddsSnapshot` per extracted record (returning exactly that count), and
every inserted snapshot's `decimal_odds` and `implied_probability` equal
the documented conversions applied to its own `american_odds` — the
derived fields have no independent source of truth. The hypothesis says
every extracted record carries a present nonzero price, which is exactly
when the loop raises no exception. -/
theorem odds_snapshot_derived_fields (now : ℕ) (odds_data : List OddsEvent)
    (db : List OddsSnapshot)
    (h : ∀ o ∈ extract_yankees_odds now odds_data, price_ok o = true) :
    ∃ ins : List OddsSnapshot,
      odds_collect_and_store now (.ok odds_data) db =
        { db := db ++ ins, events := [.commit, .close], result := .ok ins.length } ∧
      ins.length = (extract_yankees_odds now odds_data).length ∧
      ∀ s ∈ ins, american_to_decimal s.american_odds = some s.decimal_odds ∧
        american_to_probability s.american_odds = some s.implied_probability := by
  obtain ⟨ins, hloop, hlen, hfields⟩ :=
    odds_loop_ok (extract_yankees_odds now odds_data) db 0 h
  refine ⟨ins, ?_, hlen, hfields⟩
  have hun : odds_collect_and_store now (.ok odds_data) db =
      match odds_store_loop (extract_yankees_odds now odds_data) db 0 with
      | .ok (db2, stored) =>
        { db := db2, events := [.commit, .close], result := .ok stored }
      | .error e =>
        { db := db, events := [.rollback, .close], result := .error e } := rfl
  rw [hun, hloop]
  simp

/-! Concrete odds payload: one event, two bookmakers, each with an
`outrights` market holding a Yankees outcome at `-150` (plus a
non-Yankees outcome and a non-outrights market that must be filtered
out). -/

def outcome_yankees : Outcome :=
  { name := some "New York Yankees", price := some (-150) }

def outcome_dodgers : Outcome :=
  { name := some "Los Angeles Dodgers", price := some 250 }

def market_outrights : Market :=
  { key := some "outrights", outcomes := [outcome_yankees, outcome_dodgers] }

def market_h2h : Market :=
  { key := some "h2h", outcomes := [outcome_yankees] }

def bookmaker_one : Bookmaker :=
  { title := some "BookOne", markets := [market_outrights, market_h2h] }

def bookmaker_two : Bookmaker :=
  { title := some "BookTwo", markets := [market_outrights] }

def odds_event_fixture : OddsEvent :=
  { bookmakers := [bookmaker_one, bookmaker_two] }

/-- Witness for C8 on the two-bookmaker fixture payload. -/
theorem odds_snapshot_derived_fields_witness :
    ∃ ins : List OddsSnapshot,
      odds_collect_and_store 7 (.ok [odds_event_fixture]) [] =
        { db := [] ++ ins, events := [.commit, .close], result := .ok ins.length } ∧
      ins.length = (extract_yankees_odds 7 [odds_event_fixture]).length ∧
      ∀ s ∈ ins, american_to_decimal s.american_odds = some s.decimal_odds ∧
        american_to_probability s.american_odds = some s.implied_probability :=
  odds_snapshot_derived_fields 7 [odds_event_fixture] [] (by decide)

/-- C5: when the upstream API responds with a non-2xx status, both the
news and the odds `collect_and_store` re-raise the HTTP error kind and
commit nothing: the stored rows are unchanged (the partial in-memory
state is discarded by the rollback), the session trace is exactly
`rollback` then `close` (no commit, and the session is closed on this
path too), and the returned result is the HTTP error. -/
theorem http_error_rollback (status : ℕ) (fromiso : String → Option ℕ) (now : ℕ)
    (news_db : List Article) (odds_db : List OddsSnapshot) :
    (news_collect_and_store fromiso now (.error status) news_db).db = news_db ∧
    (news_collect_and_store fromiso now (.error status) news_db).events =
      [.rollback, .close] ∧
    (news_collect_and_store fromiso now (.error status) news_db).result =
      .error status ∧
    (odds_collect_and_store now (.error status) odds_db).db = odds_db ∧
    (odds_collect_and_store now (.error status) odds_db).events =
      [.rollback, .close] ∧
    (odds_collect_and_store now (.error status) odds_db).result =
      .error (.http status) :=
  ⟨rfl, rfl, rfl, rfl, rfl, rfl⟩

/-! ## Sentiment pipeline (`sentiment/analyze.py`) -/

/-- The scores dict returned by `SentimentAnalyzer.analyze_text`. -/
structure SentimentScores where
  positive : ℚ
  negative : ℚ
  neutral : ℚ
  compound : ℚ
deriving DecidableEq, Repr

/-- `SentimentAnalyzer.analyze_text` (analyze.py lines 36-69). The
pretrained classifier (tokenizer, truncation, softmax) is the oracle
`model`, which returns the three-class softmax output
`(negative, neutral, positive)` — the model's fixed class order, indices
0, 1, 2 — or `.error` when inference raises. Empty or whitespace-only
text (`if not text or not text.strip()`) short-circuits before the model
is consulted; otherwise `compound = positive - negative`. -/
def analyze_text (model : String → Except String (ℚ × ℚ × ℚ))
    (text : String) : Except String SentimentScores :=
  if text = "" ∨ py_strip text = "" then
    .ok { positive := 0, negative := 0, neutral := 1, compound := 0 }
  else
    match model text with
    | .error e => .error e
    | .ok scores =>
      .ok { positive := scores.2.2
            negative := scores.1
            neutral := scores.2.1
            compound := scores.2.2 - scores.1 }

/-- analyze.py lines 78-82: the text parts (title, description) retained
by Python truthiness (`if article.title:` / `if article.description:`). -/
def analysis_text_parts (article : Article) : List String :=
  (if article.title = "" then [] else [article.title]) ++
  (match article.description with
   | some d => if d = "" then [] else [d]
   | none => [])

/-- `SentimentAnalyzer.analyze_article` (analyze.py lines 71-85):
`" ".join(text_parts)` then delegate to `analyze_text`. -/
def analyze_article (model : String → Except String (ℚ × ℚ × ℚ))
    (article : Article) : Except String SentimentScores :=
  analyze_text model (py_join " " (analysis_text_parts article))

/-- The `sentiment_scores` table row (`storage/models.py`, class
`SentimentScore`). -/
structure SentimentScore where
  article_id : ℕ
  positive : ℚ
  negative : ℚ
  neutral : ℚ
  compound : ℚ
  model_used : String
deriving DecidableEq, Repr

/-- The batch query of analyze.py lines 98-103: every `Article` with no
associated `SentimentScore` row (outer join on the article reference,
filtered to null score ids). -/
def unprocessed_articles (articles : List Article)
    (scores : List SentimentScore) : List Article :=
  articles.filter (fun a => ! scores.any (fun s => s.article_id = a.id))

/-- The body of the `for article in articles` loop (analyze.py lines
107-124), acting on (session rows, processed, skipped): on a per-article
exception the failure is reported, `skipped` is incremented and the loop
continues; on success one `SentimentScore` row tagged with the model
identifier is added and `processed` is incremented. -/
def sentiment_step (model : String → Except String (ℚ × ℚ × ℚ))
    (model_name : String) (st : List SentimentScore × ℕ × ℕ)
    (article : Article) : List SentimentScore × ℕ × ℕ :=
  match analyze_article model article with
  | .ok scores =>
    (st.1 ++ [{ article_id := article.id
                positive := scores.positive
                negative := scores.negative
                neutral := scores.neutral
                compound := scores.compound
                model_used := model_name }],
     st.2.1 + 1, st.2.2)
  | .error _ => (st.1, st.2.1, st.2.2 + 1)

/-- Outcome of one `analyze_unprocessed_articles` run. -/
structure SentimentRun where
  scores : List SentimentScore
  events : List SessionEvent
  processed : ℕ
  skipped : ℕ

/-- `SentimentAnalyzer.analyze_unprocessed_articles` (analyze.py lines
87-133): select the unprocessed articles, run the per-article loop with
its per-article exception isolation, commit once after the whole batch,
and close the session. -/
def analyze_unprocessed_articles (model : String → Except String (ℚ × ℚ × ℚ))
    (model_name : String) (articles : List Article)
    (scores : List SentimentScore) : SentimentRun :=
  let fin := (unprocessed_articles articles scores).foldl
    (sentiment_step model model_name) (scores, 0, 0)
  { scores := fin.1, events := [.commit, .close],
    processed := fin.2.1, skipped := fin.2.2 }

lemma sentiment_fold_count (model : String → Except String (ℚ × ℚ × ℚ))
    (model_name : String) (l : List Article)
    (st : List SentimentScore × ℕ × ℕ) :
    (l.foldl (sentiment_step model model_name) st).2.1 +
      (l.foldl (sentiment_step model model_name) st).2.2 =
    st.2.1 + st.2.2 + l.length := by
  induction l generalizing st with
  | nil => simp
  | cons a rest ih =>
    rw [List.foldl_cons, ih]
    cases h : analyze_article model a <;> simp [sentiment_step, h] <;> omega

/-- C6: in `analyzeUnprocessedArticles` an exception raised while scoring
a single article increments `skipped` and the fold continues with the
session state unchanged; the run always ends in `commit` then `close`
(a per-article failure never aborts the batch or prevents the final
commit), and `processed + skipped` equals the number of articles
selected as lacking a `SentimentScore`. -/
theorem sentiment_error_isolation (model : String → Except String (ℚ × ℚ × ℚ))
    (model_name : String) (articles : List Article)
    (scores : List SentimentScore) (st : List SentimentScore × ℕ × ℕ)
    (a : Article) (e : String)
    (h : analyze_article model a = .error e) :
    sentiment_step model model_name st a = (st.1, st.2.1, st.2.2 + 1) ∧
    (analyze_unprocessed_articles model model_name articles scores).events =
      [.commit, .close] ∧
    (analyze_unprocessed_articles model model_name articles scores).processed +
      (analyze_unprocessed_articles model model_name articles scores).skipped =
      (unprocessed_articles articles scores).length := by
  refine ⟨?_, rfl, ?_⟩
  · unfold sentiment_step
    rw [h]
  · have hc := sentiment_fold_count model model_name
      (unprocessed_articles articles scores) (scores, 0, 0)
    simpa [analyze_unprocessed_articles] using hc

/-- A classifier oracle whose inference always raises. -/
def model_fail : String → Except String (ℚ × ℚ × ℚ) :=
  fun _ => .error "inference failed"

/-- A classifier oracle returning a fixed softmax triple
`(negative, neutral, positive)`. -/
def model_const : String → Except String (ℚ × ℚ × ℚ) :=
  fun _ => .ok (1/10, 2/10, 7/10)

/-- A stored article row, as the news collector would create it. -/
def article_fixture : Article :=
  { id := 1
    source := "MLB Trade Rumors"
    author := some "A. Writer"
    title := "Yankees sign a starter"
    description := some "A big offseason move."
    url := some "https://example.com/a"
    published_at := 0
    content := none }

/-- Witness for C6: a failing classifier on one unscored article. -/
theorem sentiment_error_isolation_witness :
    sentiment_step model_fail "finiteautomata/bertweet-base-sentiment-analysis"
        ([], 0, 0) article_fixture = ([], 0, 0 + 1) ∧
    (analyze_unprocessed_articles model_fail
        "finiteautomata/bertweet-base-sentiment-analysis"
        [article_fixture] []).events = [.commit, .close] ∧
    (analyze_unprocessed_articles model_fail
        "finiteautomata/bertweet-base-sentiment-analysis"
        [article_fixture] []).processed +
      (analyze_unprocessed_articles model_fail
        "finiteautomata/bertweet-base-sentiment-analysis"
        [article_fixture] []).skipped =
      (unprocessed_articles [article_fixture] []).length :=
  sentiment_error_isolation model_fail
    "finiteautomata/bertweet-base-sentiment-analysis"
    [article_fixture] [] ([], 0, 0) article_fixture "inference failed" rfl

/-- C7: empty or whitespace-only text short-circuits `analyzeText` to
exactly `{positive 0, negative 0, neutral 1, compound 0}` without
invoking the model (the result is identical under any model oracle);
`analyzeArticle` builds its input by joining the present (nonempty)
title/description parts with a single space before delegating to
`analyzeText`; an article with neither part yields exactly the
short-circuit result. -/
theorem analyze_text_short_circuit
    (model model2 : String → Except String (ℚ × ℚ × ℚ))
    (text : String) (article : Article) (d : String)
    (hws : py_strip text = "") :
    (analyze_text model text =
        .ok { positive := 0, negative := 0, neutral := 1, compound := 0 } ∧
      analyze_text model text = analyze_text model2 text) ∧
    (article.title ≠ "" → article.description = some d → d ≠ "" →
      analyze_article model article =
        analyze_text model (article.title ++ " " ++ d)) ∧
    (article.title ≠ "" →
      (article.description = none ∨ article.description = some "") →
      analyze_article model article = analyze_text model article.title) ∧
    (article.title = "" → article.description = some d → d ≠ "" →
      analyze_article model article = analyze_text model d) ∧
    (article.title = "" →
      (article.description = none ∨ article.description = some "") →
      analyze_article model article =
        .ok { positive := 0, negative := 0, neutral := 1, compound := 0 }) := by
  refine ⟨⟨?_, ?_⟩, ?_, ?_, ?_, ?_⟩
  · simp [analyze_text, hws]
  · simp [analyze_text, hws]
  · intro ht hd hd'
    unfold analyze_article analysis_text_parts
    rw [hd]
    simp [ht, hd', py_join]
  · intro ht hd
    unfold analyze_article analysis_text_parts
    rcases hd with hd | hd <;> rw [hd] <;> simp [ht, py_join]
  · intro ht hd hd'
    unfold analyze_article analysis_text_parts
    rw [hd]
    simp [ht, hd', py_join]
  · intro ht hd
    unfold analyze_article analysis_text_parts
    rcases hd with hd | hd <;> rw [hd] <;> simp [ht, py_join, analyze_text]

/-- Witness for C7: whitespace-only text `"   "` under both the failing
and the constant classifier oracles, and `article_fixture` (nonempty
title and description). -/
theorem analyze_text_short_circuit_witness :
    (analyze_text model_fail "   " =
        .ok { positive := 0, negative := 0, neutral := 1, compound := 0 } ∧
      analyze_text model_fail "   " = analyze_text model_const "   ") ∧
    (article_fixture.title ≠ "" →
      article_fixture.description = some "A big offseason move." →
      "A big offseason move." ≠ "" →
      analyze_article model_fail article_fixture =
        analyze_text model_fail
          (article_fixture.title ++ " " ++ "A big offseason move.")) ∧
    (article_fixture.title ≠ "" →
      (article_fixture.description = none ∨
        article_fixture.description = some "") →
      analyze_article model_fail article_fixture =
        analyze_text model_fail article_fixture.title) ∧
    (article_fixture.title = "" →
      article_fixture.description = some "A big offseason move." →
      "A big offseason move." ≠ "" →
      analyze_article model_fail article_fixture =
        analyze_text model_fail "A big offseason move.") ∧
    (article_fixture.title = "" →
      (article_fixture.description = none ∨
        article_fixture.description = some "") →
      analyze_article model_fail article_fixture =
        .ok { positive := 0, negative := 0, neutral := 1, compound := 0 }) :=
  analyze_text_short_circuit model_fail model_const "   " article_fixture
    "A big offseason move." (by decide)
